import Mathlib

/-!
Verification development for the invoice-mapping core of
pavlohrechko/servio_ocr_invoices.

The embedding models, from the Python source:
  - the persisted confirmed-mapping store (src/core_mapper.py,
    load_confirmed_mappings / save_confirmed_mapping),
  - the reconciliation loop that partitions validated LLM output into
    auto-confirmed and needs-review items (src/cli.py main,
    src/app.py process_invoice),
  - the response-validation preprocessing and shape check
    (src/core_mapper.py _parse_response and the MappedItem pydantic model),
  - the HTTP confirm endpoint (src/app.py confirm_mapping) and the CLI
    correction selection loop (src/cli.py handle_user_confirmation_loop),
  - the per-customer storage layer that src/app.py calls; its
    implementation is not part of the sources, so it is modelled from the
    specification where noted.

Python dicts (and their JSON serialization) are modelled as association
lists with in-place update and ordered append, matching insertion-order
semantics. File-system state for the single JSON store file is modelled
by the inductive type Disk.
-/

/-- A persisted mapping memory: invoice-item text to reference-item text or
an explicit null (no match).  Models the JSON-object / Python-dict content
of confirmed_mappings.json. -/
def Mapping : Type := List (String × Option String)

/-- Python dict lookup: first matching key (keys are unique in any state
the code produces). `none` means the key is absent. -/
def dictLookup : Mapping → String → Option (Option String)
  | [], _ => none
  | (k0, v0) :: rest, k => if k0 = k then some v0 else dictLookup rest k

/-- Python dict update `d[k] = v`: replace the value in place when the key
exists (keeping its position), otherwise append, matching dict
insertion-order semantics. -/
def dictInsert : Mapping → String → Option String → Mapping
  | [], k, v => [(k, v)]
  | (k0, v0) :: rest, k, v =>
    if k0 = k then (k0, v) :: rest else (k0, v0) :: dictInsert rest k v

/-- On-disk state of one mapping-store file (core_mapper.DB_FILE):
the file may be absent, unreadable (open/read raises IOError), present
but not valid JSON, or a valid serialized mapping. -/
inductive Disk : Type where
  | absent : Disk
  | unreadable : Disk
  | corrupt : Disk
  | valid (m : Mapping) : Disk

/-- src/core_mapper.py lines 65-74, load_confirmed_mappings: returns the
empty dict when the file does not exist; catches JSONDecodeError and
IOError, logs, and returns the empty dict; otherwise returns the parsed
mapping. -/
def load_confirmed_mappings : Disk → Mapping
  | Disk.absent => []
  | Disk.unreadable => []
  | Disk.corrupt => []
  | Disk.valid m => m

/-- src/core_mapper.py lines 76-85, save_confirmed_mapping: loads the full
current memory, upserts the single key, and rewrites the whole file.
`writeOk` models whether the file write raises IOError.  The second
component of the result records whether an exception escapes to the
caller: the source catches IOError and only logs it, so it is `false` on
both paths.  On a failed write the file content is left as it was (the
precise content after a failed write is not observable through this
module; only the success path and the escape flag are used below). -/
def save_confirmed_mapping (d : Disk) (writeOk : Bool)
    (invoice_item : String) (menu_item : Option String) : Disk × Bool :=
  let mappings := dictInsert (load_confirmed_mappings d) invoice_item menu_item
  if writeOk then (Disk.valid mappings, false) else (d, false)

/-- Per-customer storage: each customer id names an independent persisted
mapping record. -/
def Store : Type := String → Disk

/-- Modelled from the spec: src/app.py calls
core_mapper.load_confirmed_mappings(customer_id), a per-customer variant
whose implementation is not among the sources (the src/core_mapper.py
variant is single-tenant).  Per section 4.1 of the spec each customer has
its own record; the per-record read behavior follows
src/core_mapper.py load_confirmed_mappings. -/
def load_memory (s : Store) (customer_id : String) : Mapping :=
  load_confirmed_mappings (s customer_id)

/-- Modelled from the spec: src/app.py calls
core_mapper.save_confirmed_mapping(customer_id, invoice_item, list_item),
a per-customer variant whose implementation is not among the sources.
Per section 4.1 each customer has its own record; the per-record
read-modify-write follows src/core_mapper.py save_confirmed_mapping on
its successful-write path. -/
def save_one (s : Store) (customer_id invoice_item : String)
    (menu_item : Option String) : Store :=
  fun c =>
    if c = customer_id then
      (save_confirmed_mapping (s customer_id) true invoice_item menu_item).1
    else s c

/-- Fold a sequence of confirmation writes for one customer over the
store, in order. -/
def save_all (s : Store) (customer_id : String)
    (ops : List (String × Option String)) : Store :=
  ops.foldl (fun st kv => save_one st customer_id kv.1 kv.2) s

/-- The validated record for one invoice line item
(src/core_mapper.py MappedItem pydantic model): required invoice_item,
suggested_menu_dish that may be an explicit null, notes defaulting to the
empty string. -/
structure MappedItem : Type where
  invoice_item : String
  suggested_menu_dish : Option String
  notes : String := ""
deriving DecidableEq

/-- The reconciliation loop of src/cli.py main lines 130-136 (src/app.py
process_invoice lines 136-142 is the same loop over its own MappedItem
variant): for each item in model-output order, an exact lookup of
invoice_item against the confirmed mappings; on a hit the suggestion is
overwritten with the memory value and the item goes to the auto-confirmed
list, otherwise the item goes unchanged to the review list.  Returns
(auto_confirmed_items, items_to_review). -/
def reconcile : List MappedItem → Mapping → List MappedItem × List MappedItem
  | [], _ => ([], [])
  | item :: rest, mem =>
    let p := reconcile rest mem
    match dictLookup mem item.invoice_item with
    | some v => ({ item with suggested_menu_dish := v } :: p.1, p.2)
    | none => (p.1, item :: p.2)

/-- The two per-customer records src/app.py works with: the uploaded
reference list file and the mapping-memory file. -/
structure CustomerFiles : Type where
  listFile : Option (List String)
  memFile : Disk

/-- Per-customer state of the app layer. -/
def AppStore : Type := String → CustomerFiles

/-- src/app.py reads the customer's reference list through
core_mapper.load_customer_list; absent record reads as the empty list
(spec section 4.2). -/
def load_customer_list (s : AppStore) (customer_id : String) : List String :=
  match (s customer_id).listFile with
  | some l => l
  | none => []

/-- Modelled from the spec: core_mapper.initialize_customer_files, called
by src/app.py upload_list, is not among the sources.  Per spec section
4.2 it fully replaces the customer's reference list; per sections 3 and
4.1 it materializes an empty mapping record when none exists and must not
erase an existing MappingMemory (re-upload preserves confirmation
history). -/
def init_customer_files (s : AppStore) (customer_id : String)
    (items : List String) : AppStore :=
  fun c =>
    if c = customer_id then
      { listFile := some items,
        memFile :=
          match (s customer_id).memFile with
          | Disk.absent => Disk.valid []
          | d => d }
    else s c

/-- Reading a customer's mapping memory in the app layer (the per-record
behavior is src/core_mapper.py load_confirmed_mappings). -/
def app_load_memory (s : AppStore) (customer_id : String) : Mapping :=
  load_confirmed_mappings (s customer_id).memFile

/-- The app-layer per-customer confirmed-mapping write (per-record
behavior from src/core_mapper.py save_confirmed_mapping, successful-write
path; the per-customer keying is modelled from spec section 4.1 as in
save_one). -/
def app_save_mapping (s : AppStore) (customer_id invoice_item : String)
    (list_item : Option String) : AppStore :=
  fun c =>
    if c = customer_id then
      { s customer_id with
        memFile :=
          (save_confirmed_mapping (s customer_id).memFile true
            invoice_item list_item).1 }
    else s c

/-- src/app.py lines 164-196, confirm_mapping: rejects only a missing or
empty customer_id or invoice_item (HTTP 400, modelled as a `false` second
component); otherwise it saves whatever list_item was provided, with no
validation against the customer's reference list, and reports success. -/
def confirm_mapping (s : AppStore) (customer_id invoice_item : String)
    (list_item : Option String) : AppStore × Bool :=
  if customer_id = "" ∨ invoice_item = "" then (s, false)
  else (app_save_mapping s customer_id invoice_item list_item, true)

/-- One user input inside the correction sub-loop of
src/cli.py handle_user_confirmation_loop: the letter n (no match), an
integer, or anything int() fails to parse. -/
inductive UserChoice : Type where
  | noMatch : UserChoice
  | number (i : Int) : UserChoice
  | invalid : UserChoice

/-- The correction selection loop of src/cli.py
handle_user_confirmation_loop lines 79-95: inputs are consumed until one
is n (returns an explicit no-match) or an integer inside the menu range
(returns that menu entry); out-of-range numbers and unparsable input
cause a retry.  `none` means the input sequence ran out with no accepted
selection (the loop is still waiting, and nothing was written). -/
def resolve_correction (menu : List String) : List UserChoice → Option (Option String)
  | [] => none
  | UserChoice.noMatch :: _ => some none
  | UserChoice.number i :: rest =>
    if h : 0 ≤ i ∧ i < (menu.length : Int) then
      some (some (menu.get ⟨i.toNat, by omega⟩))
    else resolve_correction menu rest
  | UserChoice.invalid :: rest => resolve_correction menu rest

/-- Characters stripped by Python str.strip() in the texts at hand (ASCII
whitespace; the fence-stripping proofs never depend on completeness of
this set). -/
def pyIsSpace (c : Char) : Bool :=
  c = ' ' || c = '\t' || c = '\n' || c = '\r' || c = '\x0b' || c = '\x0c'

/-- Python str.strip(): drop leading and trailing whitespace.  Raw
completion text is modelled as a list of characters. -/
def pyStrip (l : List Char) : List Char :=
  ((l.dropWhile pyIsSpace).reverse.dropWhile pyIsSpace).reverse

/-- The opening fence marker checked by _parse_response. -/
def fenceOpen : List Char := "```json".toList

/-- The closing fence marker assumed by the slice in _parse_response. -/
def fenceClose : List Char := "```".toList

/-- The preprocessing of src/core_mapper.py _parse_response lines 198-199:
when the stripped text starts with the json fence, the parsed text is the
stripped text without its first 7 and last 3 characters (the Python slice
text.strip()[7:-3]); otherwise the original text is parsed as is. -/
def stripFences (text : List Char) : List Char :=
  let t := pyStrip text
  if fenceOpen.isPrefixOf t then
    (t.drop 7).take ((t.drop 7).length - 3)
  else text

/-- JSON values as produced by Python json.loads. -/
inductive Json : Type where
  | null : Json
  | bool (b : Bool) : Json
  | num (n : Int) : Json
  | str (s : String) : Json
  | arr (elems : List Json) : Json
  | obj (fields : List (String × Json)) : Json

/-- Field lookup in a JSON object. -/
def jlookup : List (String × Json) → String → Option Json
  | [], _ => none
  | (k, j) :: rest, key => if k = key then some j else jlookup rest key

/-- Pydantic validation of the suggested_menu_dish field: required, must
be a string or an explicit null. -/
def parseSuggested : Option Json → Option (Option String)
  | some (Json.str s) => some (some s)
  | some Json.null => some none
  | _ => none

/-- Pydantic validation of the notes field: optional with default empty
string, must be a string when present. -/
def parseNotes : Option Json → Option String
  | none => some ""
  | some (Json.str s) => some s
  | some _ => none

/-- Pydantic validation of one element of mapped_items against the
MappedItem model of src/core_mapper.py: an object with a required string
invoice_item, a required string-or-null suggested_menu_dish, and an
optional string notes. -/
def parseMappedItem : Json → Option MappedItem
  | Json.obj fields =>
    match jlookup fields "invoice_item",
          parseSuggested (jlookup fields "suggested_menu_dish"),
          parseNotes (jlookup fields "notes") with
    | some (Json.str inv), some sug, some nts => some ⟨inv, sug, nts⟩
    | _, _, _ => none
  | _ => none

/-- Validate every element of the mapped_items array; all-or-nothing, as
pydantic list validation is. -/
def parseMappedItems : List Json → Option (List MappedItem)
  | [] => some []
  | j :: rest =>
    match parseMappedItem j, parseMappedItems rest with
    | some it, some its => some (it :: its)
    | _, _ => none

/-- Pydantic validation of the InvoiceMappingResponse model of
src/core_mapper.py: an object whose mapped_items field is an array of
valid MappedItem objects. -/
def validateResponse : Json → Option (List MappedItem)
  | Json.obj fields =>
    match jlookup fields "mapped_items" with
    | some (Json.arr xs) => parseMappedItems xs
    | _ => none
  | _ => none

/-- src/core_mapper.py _parse_response lines 190-205: strip the fence if
present, decode with json.loads (an external Python-stdlib capability,
passed here as an abstract decoder), then validate the shape.  `none`
models the raised MalformedCompletion failure (JSONDecodeError or
pydantic ValidationError); the result carries the items of the parsed
InvoiceMappingResponse. -/
def parse_response (jsonLoads : List Char → Option Json)
    (text : List Char) : Option (List MappedItem) :=
  match jsonLoads (stripFences text) with
  | some j => validateResponse j
  | none => none

/-- Upserting a key makes lookup of that key return the new value. -/
theorem dictLookup_dictInsert_self (m : Mapping) (k : String) (v : Option String) :
    dictLookup (dictInsert m k v) k = some v := by
  induction m with
  | nil => simp [dictInsert, dictLookup]
  | cons hd tl ih =>
    obtain ⟨k0, v0⟩ := hd
    by_cases h : k0 = k
    · simp [dictInsert, dictLookup, h]
    · simp [dictInsert, dictLookup, h, ih]

/-- Upserting a key leaves lookup of every other key unchanged. -/
theorem dictLookup_dictInsert_ne (m : Mapping) (k k2 : String) (v : Option String)
    (h : k2 ≠ k) : dictLookup (dictInsert m k v) k2 = dictLookup m k2 := by
  induction m with
  | nil =>
    simp only [dictInsert, dictLookup]
    rw [if_neg (fun e => h e.symm)]
  | cons hd tl ih =>
    obtain ⟨k0, v0⟩ := hd
    by_cases hk : k0 = k
    · subst hk
      simp only [dictInsert, if_pos rfl, dictLookup]
      rw [if_neg (fun e => h e.symm), if_neg (fun e => h e.symm)]
    · by_cases hk2 : k0 = k2
      · simp [dictInsert, dictLookup, hk, hk2, h]
      · simp [dictInsert, dictLookup, hk, hk2, ih]

/-- Upserting the same key-value pair twice equals upserting it once. -/
theorem dictInsert_idem (m : Mapping) (k : String) (v : Option String) :
    dictInsert (dictInsert m k v) k v = dictInsert m k v := by
  induction m with
  | nil => simp [dictInsert]
  | cons hd tl ih =>
    obtain ⟨k0, v0⟩ := hd
    by_cases h : k0 = k
    · simp [dictInsert, h]
    · simp [dictInsert, h, ih]

/-- The memory a customer reads back right after save_one is the upsert of
what that customer read before. -/
theorem load_memory_save_one_self (s : Store) (c k : String) (v : Option String) :
    load_memory (save_one s c k v) c = dictInsert (load_memory s c) k v := by
  simp [load_memory, save_one, save_confirmed_mapping, load_confirmed_mappings]

/-- save_one for one customer does not touch another customer's record. -/
theorem load_memory_save_one_ne (s : Store) (c c2 k : String) (v : Option String)
    (h : c2 ≠ c) : load_memory (save_one s c k v) c2 = load_memory s c2 := by
  simp [load_memory, save_one, h]

/-- C3: for every prior per-customer memory state, after
save_one(customer_id, k, v) a subsequent load(customer_id) returns a
memory in which k maps to v, and every previously-present key other than
k is still present with its previous value unmodified. -/
theorem save_one_read_modify_write (s : Store) (c k : String) (v : Option String)
    (k2 : String) (v2 : Option String) (hne : k2 ≠ k)
    (hprev : dictLookup (load_memory s c) k2 = some v2) :
    dictLookup (load_memory (save_one s c k v) c) k = some v ∧
    dictLookup (load_memory (save_one s c k v) c) k2 = some v2 := by
  rw [load_memory_save_one_self]
  refine ⟨dictLookup_dictInsert_self _ _ _, ?_⟩
  rw [dictLookup_dictInsert_ne _ _ _ _ hne, hprev]

/-- Witness for C3 at a concrete store with one prior key. -/
theorem save_one_read_modify_write_witness :
    dictLookup
      (load_memory
        (save_one (fun _ => Disk.valid [("a", some "x")]) "c" "b" (some "y")) "c")
      "b" = some (some "y") ∧
    dictLookup
      (load_memory
        (save_one (fun _ => Disk.valid [("a", some "x")]) "c" "b" (some "y")) "c")
      "a" = some (some "x") :=
  save_one_read_modify_write (fun _ => Disk.valid [("a", some "x")]) "c" "b"
    (some "y") "a" (some "x") (by decide) (by decide)

/-- C4: for every key, value (including null) and starting store, calling
save_one twice with the same arguments yields the same final persisted
store as calling it once. -/
theorem save_one_idempotent (s : Store) (c k : String) (v : Option String) :
    save_one (save_one s c k v) c k v = save_one s c k v := by
  funext c2
  by_cases h : c2 = c
  · subst h
    simp [save_one, save_confirmed_mapping, load_confirmed_mappings, dictInsert_idem]
  · simp [save_one, h]

/-- C8: per-customer isolation: any sequence of confirmation writes for
customer c1 leaves the memory loaded for a distinct customer c2 unchanged. -/
theorem save_all_isolated (s : Store) (c1 c2 : String) (h : c1 ≠ c2)
    (ops : List (String × Option String)) :
    load_memory (save_all s c1 ops) c2 = load_memory s c2 := by
  induction ops generalizing s with
  | nil => rfl
  | cons op rest ih =>
    have step : load_memory (save_one s c1 op.1 op.2) c2 = load_memory s c2 :=
      load_memory_save_one_ne s c1 c2 op.1 op.2 (fun e => h e.symm)
    calc load_memory (save_all s c1 (op :: rest)) c2
        = load_memory (save_all (save_one s c1 op.1 op.2) c1 rest) c2 := rfl
      _ = load_memory (save_one s c1 op.1 op.2) c2 := ih (save_one s c1 op.1 op.2)
      _ = load_memory s c2 := step

/-- Witness for C8 at a concrete store and a two-write sequence. -/
theorem save_all_isolated_witness :
    load_memory
      (save_all (fun _ => Disk.absent) "alice"
        [("Tomatoes", some "Margherita Pizza"), ("Beans", none)]) "bob" =
    load_memory (fun _ => Disk.absent) "bob" :=
  save_all_isolated (fun _ => Disk.absent) "alice" "bob" (by decide)
    [("Tomatoes", some "Margherita Pizza"), ("Beans", none)]

/-- C10: loading the persisted mapping memory is total over every on-disk
state and returns the empty mapping on every state that is not a valid
serialized mapping (file absent, unreadable, or invalid JSON). -/
theorem load_total_on_failure (d : Disk)
    (h : ∀ m : Mapping, d ≠ Disk.valid m) : load_confirmed_mappings d = [] := by
  cases d with
  | absent => rfl
  | unreadable => rfl
  | corrupt => rfl
  | valid m => exact absurd rfl (h m)

/-- Witness for C10 at the invalid-JSON disk state. -/
theorem load_total_on_failure_witness : load_confirmed_mappings Disk.corrupt = [] :=
  load_total_on_failure Disk.corrupt (fun m h => by cases h)

/-- The auto-confirmed output is exactly the memory hits, in input order,
each with its suggestion overwritten by the memory value. -/
theorem reconcile_fst_eq (items : List MappedItem) (mem : Mapping) :
    (reconcile items mem).1 =
      items.filterMap (fun it =>
        (dictLookup mem it.invoice_item).map
          (fun v => { it with suggested_menu_dish := v })) := by
  induction items with
  | nil => rfl
  | cons item rest ih =>
    cases h : dictLookup mem item.invoice_item with
    | none => simp [reconcile, h, ih]
    | some v => simp [reconcile, h, ih]

/-- The needs-review output is exactly the memory misses, unchanged, in
input order. -/
theorem reconcile_snd_eq (items : List MappedItem) (mem : Mapping) :
    (reconcile items mem).2 =
      items.filter (fun it => (dictLookup mem it.invoice_item).isNone) := by
  induction items with
  | nil => rfl
  | cons item rest ih =>
    cases h : dictLookup mem item.invoice_item with
    | none => simp [reconcile, h, ih]
    | some v => simp [reconcile, h, ih]

/-- C1: every input item whose invoice_item is a memory key with value v
ends up in the auto-confirmed output with its suggestion set to v,
whatever suggestion the model had proposed, and never in the needs-review
output. -/
theorem reconcile_override (items : List MappedItem) (mem : Mapping)
    (item : MappedItem) (v : Option String) (hmem : item ∈ items)
    (hlook : dictLookup mem item.invoice_item = some v) :
    { item with suggested_menu_dish := v } ∈ (reconcile items mem).1 ∧
    item ∉ (reconcile items mem).2 := by
  constructor
  · rw [reconcile_fst_eq]
    exact List.mem_filterMap.mpr ⟨item, hmem, by rw [hlook]; rfl⟩
  · rw [reconcile_snd_eq]
    intro hc
    have := List.of_mem_filter hc
    rw [hlook] at this
    simp [Option.isNone] at this

/-- Witness for C1: the spec's scenario memory and items. -/
theorem reconcile_override_witness :
    ({ invoice_item := "Tomatoes (5kg)",
       suggested_menu_dish := some "Margherita Pizza", notes := "" } : MappedItem) ∈
      (reconcile
        [{ invoice_item := "Tomatoes (5kg)", suggested_menu_dish := none, notes := "" },
         { invoice_item := "Espresso Beans", suggested_menu_dish := none, notes := "" }]
        [("Tomatoes (5kg)", some "Margherita Pizza")]).1 ∧
    ({ invoice_item := "Tomatoes (5kg)", suggested_menu_dish := none, notes := "" } : MappedItem) ∉
      (reconcile
        [{ invoice_item := "Tomatoes (5kg)", suggested_menu_dish := none, notes := "" },
         { invoice_item := "Espresso Beans", suggested_menu_dish := none, notes := "" }]
        [("Tomatoes (5kg)", some "Margherita Pizza")]).2 :=
  reconcile_override
    [{ invoice_item := "Tomatoes (5kg)", suggested_menu_dish := none, notes := "" },
     { invoice_item := "Espresso Beans", suggested_menu_dish := none, notes := "" }]
    [("Tomatoes (5kg)", some "Margherita Pizza")]
    { invoice_item := "Tomatoes (5kg)", suggested_menu_dish := none, notes := "" }
    (some "Margherita Pizza") (by decide) (by decide)

/-- C2: reconciliation is a stable partition: the needs-review output is
the subsequence of memory misses with each suggestion exactly as the
validator produced it, and the auto-confirmed output is the subsequence
of memory hits, both in the original model-output order. -/
theorem reconcile_partition (items : List MappedItem) (mem : Mapping) :
    (reconcile items mem).2 =
      items.filter (fun it => (dictLookup mem it.invoice_item).isNone) ∧
    (reconcile items mem).1 =
      items.filterMap (fun it =>
        (dictLookup mem it.invoice_item).map
          (fun v => { it with suggested_menu_dish := v })) :=
  ⟨reconcile_snd_eq items mem, reconcile_fst_eq items mem⟩

/-- C6 counterexample: a failed store write is not surfaced: with a prior
valid empty store and a write that raises IOError inside
save_confirmed_mapping, the call returns normally (no exception escapes,
second component false) and the key was not persisted; a failed read
likewise surfaces nothing and returns the empty mapping. -/
theorem persistence_failure_swallowed :
    save_confirmed_mapping (Disk.valid []) false "Tomatoes (5kg)"
      (some "Margherita Pizza") = (Disk.valid [], false) ∧
    load_confirmed_mappings Disk.unreadable = [] :=
  ⟨rfl, rfl⟩

/-- C6 amended: persistence I/O failures are logged and swallowed, never
surfaced: a save whose file write fails still returns normally with no
exception escaping to the caller, and a load whose file read fails (or
whose content is invalid JSON) returns the empty mapping. -/
theorem persistence_failure_logged_only (d : Disk) (k : String) (v : Option String) :
    (save_confirmed_mapping d false k v).2 = false ∧
    load_confirmed_mappings Disk.unreadable = [] ∧
    load_confirmed_mappings Disk.corrupt = [] := by
  refine ⟨?_, rfl, rfl⟩
  simp [save_confirmed_mapping]

/-- C5: replacing a customer's reference list twice leaves the loaded
mapping memory of that customer exactly as it was before the
replacements. -/
theorem replace_preserves_memory (s : AppStore) (c : String) (L1 L2 : List String) :
    app_load_memory (init_customer_files (init_customer_files s c L1) c L2) c =
    app_load_memory s c := by
  simp only [app_load_memory, init_customer_files, if_pos rfl]
  cases h : (s c).memFile with
  | absent => simp [h, load_confirmed_mappings]
  | unreadable => simp [h, load_confirmed_mappings]
  | corrupt => simp [h, load_confirmed_mappings]
  | valid m => simp [h, load_confirmed_mappings]

/-- A concrete app state: one customer c1 with the reference list
containing only Tiramisu and a valid empty mapping memory. -/
def exampleAppStore : AppStore :=
  fun _ => { listFile := some ["Tiramisu"], memFile := Disk.valid [] }

/-- C7 counterexample: the HTTP confirm endpoint accepts a corrected
target that is not in the customer's reference list: against a list that
does not contain it, confirm_mapping reports success and the memory now
maps the invoice item to the nonexistent dish. -/
theorem confirm_mapping_no_validation :
    ("Nonexistent Dish" ∈ load_customer_list exampleAppStore "c1") = False ∧
    (confirm_mapping exampleAppStore "c1" "Mascarpone Dessert"
      (some "Nonexistent Dish")).2 = true ∧
    dictLookup
      (app_load_memory
        (confirm_mapping exampleAppStore "c1" "Mascarpone Dessert"
          (some "Nonexistent Dish")).1 "c1")
      "Mascarpone Dessert" = some (some "Nonexistent Dish") := by
  refine ⟨?_, by decide, by decide⟩
  simp [load_customer_list, exampleAppStore]

/-- C7 amended: membership validation of a corrected target exists only
in the CLI confirmation loop, where a correction is chosen by menu index
so that any accepted selection is a member of the reference menu
(out-of-range or unparsable input is rejected with a retry and produces
no selection); the HTTP confirm endpoint performs no membership
validation and writes whatever target it is given. -/
theorem cli_correction_member (menu : List String) (cs : List UserChoice)
    (v : String) (h : resolve_correction menu cs = some (some v)) : v ∈ menu := by
  induction cs with
  | nil => simp [resolve_correction] at h
  | cons c rest ih =>
    cases c with
    | noMatch => simp [resolve_correction] at h
    | invalid => exact ih h
    | number i =>
      by_cases hr : 0 ≤ i ∧ i < (menu.length : Int)
      · rw [resolve_correction, dif_pos hr] at h
        have : menu.get ⟨i.toNat, by omega⟩ = v := by
          injection h with h1
          injection h1
        exact this ▸ List.get_mem menu i.toNat (by omega)
      · rw [resolve_correction, dif_neg hr] at h
        exact ih h

/-- Witness for the C7 amended theorem: selecting index 0 after one
out-of-range attempt yields Tiramisu, a member of the menu. -/
theorem cli_correction_member_witness : "Tiramisu" ∈ ["Tiramisu", "Cheesecake"] :=
  cli_correction_member ["Tiramisu", "Cheesecake"]
    [UserChoice.number 5, UserChoice.number 0] "Tiramisu" (by decide)

/-- A list is a Boolean-prefix of itself followed by anything. -/
theorem isPrefixOf_append_self (l t : List Char) : l.isPrefixOf (l ++ t) = true := by
  induction l with
  | nil => simp [List.isPrefixOf]
  | cons a as ih => simp [List.isPrefixOf, ih]

/-- C9: fence tolerance of the response validator: for every raw
completion whose stripped text is exactly the json fence around some
inner text, and whose inner text does not itself begin with the fence,
parsing the wrapped text yields exactly what parsing the inner text
directly yields, whenever the latter succeeds. -/
theorem parse_response_fence_tolerant
    (jsonLoads : List Char → Option Json) (wrapped inner : List Char)
    (items : List MappedItem)
    (hwrap : pyStrip wrapped = fenceOpen ++ inner ++ fenceClose)
    (hplain : fenceOpen.isPrefixOf (pyStrip inner) = false)
    (hinner : parse_response jsonLoads inner = some items) :
    parse_response jsonLoads wrapped = some items := by
  have hpre : fenceOpen.isPrefixOf (fenceOpen ++ inner ++ fenceClose) = true := by
    rw [List.append_assoc]
    exact isPrefixOf_append_self _ _
  have hdrop : (fenceOpen ++ inner ++ fenceClose).drop 7 = inner ++ fenceClose := by
    rw [List.append_assoc]
    exact List.drop_left' (by rfl)
  have htake :
      (inner ++ fenceClose).take ((inner ++ fenceClose).length - 3) = inner := by
    have hlen : (inner ++ fenceClose).length - 3 = inner.length := by
      simp [List.length_append, fenceClose]
    rw [hlen]
    exact List.take_left inner fenceClose
  have hstrip_wrapped : stripFences wrapped = inner := by
    simp only [stripFences, hwrap, hpre, if_true]
    rw [hdrop, htake]
  have hstrip_inner : stripFences inner = inner := by
    simp [stripFences, hplain]
  simp only [parse_response, hstrip_wrapped]
  simp only [parse_response, hstrip_inner] at hinner
  exact hinner

/-- Witness for C9: a fenced empty JSON object, with a decoder fixed on
an empty mapped_items response. -/
theorem parse_response_fence_tolerant_witness :
    parse_response (fun _ => some (Json.obj [("mapped_items", Json.arr [])]))
      ("```json\x7b\x7d```".toList) = some [] :=
  parse_response_fence_tolerant
    (fun _ => some (Json.obj [("mapped_items", Json.arr [])]))
    ("```json\x7b\x7d```".toList) ("\x7b\x7d".toList) [] (by decide) (by decide)
    (by decide)
